import Mathlib

/-!
Shallow embedding of the listening-party session/voting state machine from
`src/server.js` (the Cloudflare-worker Discord bot).  The worker's key-value
store (`env.DB`) is modelled as a record with one field per key
(`SESSION_ACTIVE`, `QUEUE`, `CURRENT_SONG`, `SESSION_PARTICIPANTS`,
`ELIGIBLE_VOTERS`, `VOTED_USERS`, `HISTORY`); `Option` distinguishes an
absent key from a present one, and the JSON encode/decode round trip (which
is the identity on these values) is elided.  JavaScript objects used as
string-keyed maps (`VOTED_USERS`, `HISTORY`) are modelled as association
lists in key insertion order, which is exactly the enumeration order
`Object.values`/`Object.keys` uses for these non-index keys (YouTube ids are
11-character strings, never array indices).  External collaborators (the
YouTube catalog lookup and the URL parsers feeding it) are injected as
operation arguments, as the spec's section 6 prescribes; everything the
handlers do with the store is translated directly from the source.
-/

namespace ListenAgain

/-- The value stored under `CURRENT_SONG` (JSON object `{title, id, votes}`);
`votes` is written as `0` by both vote-start and vote-next and never read. -/
structure Song where
  title : String
  id : String
  votes : Int
deriving DecidableEq

/-- An element of the `QUEUE` array as produced by `getPlaylistItems`. -/
structure QueueItem where
  title : String
  id : String
  thumbnail : Option String
deriving DecidableEq

/-- One value of the `HISTORY` object (per-track accumulator). -/
structure HistEntry where
  title : String
  totalPoints : Int
  voterCount : Nat
  participantCount : Nat
deriving DecidableEq

/-- The raw string under the `CURRENT_SONG` key: the key may be absent
(deleted by session-start), the empty string (written by vote-end), or the
JSON of a song.  The code only ever tests the raw string for truthiness and
parses it when truthy, so the three constructors capture every behaviour. -/
inductive CurSongVal
  | absent
  | emptyStr
  | song (s : Song)
deriving DecidableEq

/-- Truthiness-plus-parse of the `CURRENT_SONG` value: `absent` and the
empty string are falsy, a stored song is truthy and parses to itself. -/
def CurSongVal.get? : CurSongVal → Option Song
  | .song s => some s
  | _ => none

/-- The whole key-value store, one field per key used by `server.js`. -/
structure Store where
  sessionActive : Option String
  queue : Option (List QueueItem)
  currentSong : CurSongVal
  participants : Option (List String)
  eligibleVoters : Option (List String)
  votedUsers : Option (List (String × Int))
  history : Option (List (String × HistEntry))
deriving DecidableEq

/-- The store before any request: no key has ever been written. -/
def initialStore : Store :=
  { sessionActive := none, queue := none, currentSong := .absent,
    participants := none, eligibleVoters := none, votedUsers := none,
    history := none }

/-- Response intents, one constructor per distinct reply the handlers emit
(the rendered Discord message text is abstracted away). -/
inductive Resp
  | forbidden
  | alreadyActive
  | invalidPlaylistUrl
  | emptyPlaylist
  | sessionStarted (queueSize : Nat)
  | notActive
  | voteInProgress
  | unresolvableUrl
  | nowPlaying (title vid : String)
  | queueEmpty
  | noCurrentSong
  | voteEnded (title : String) (totalPoints : Int) (voterCount participantCount : Nat)
      (average : ℚ) (highApproval : Bool)
  | sessionEnded (summary : List HistEntry)
  | alreadyJoined
  | joined (count : Nat)
  | notJoined
  | leftSession
  | targetNotJoined
  | kicked
  | noParticipants
  | participantList (users : List String)
  | sessionClosed
  | voteClosed
  | notAParticipant
  | notEligible
  | voteCast (points : Int)
  | voteRetracted
  | unknownComponent
deriving DecidableEq

/-- First-match lookup in a string-keyed association list, mirroring
property access `obj[key]` on a JavaScript object (keys are unique, so
first match is the only match). -/
def vuLookup (u : String) : List (String × Int) → Option Int
  | [] => none
  | (k, v) :: rest => if k = u then some v else vuLookup u rest

/-- Property assignment `obj[key] = p`: update in place if the key exists
(keeping its position in insertion order), else append at the end. -/
def vuSet (u : String) (p : Int) : List (String × Int) → List (String × Int)
  | [] => [(u, p)]
  | (k, v) :: rest => if k = u then (k, p) :: rest else (k, v) :: vuSet u p rest

/-- Property deletion `delete obj[key]`: remove the (unique) entry. -/
def vuErase (u : String) : List (String × Int) → List (String × Int)
  | [] => []
  | (k, v) :: rest => if k = u then rest else (k, v) :: vuErase u rest

/-- Truthiness of `votedUsers[userId]` as tested by exit/kick: a present
numeric value is truthy exactly when it is nonzero. -/
def vuTruthy (u : String) (l : List (String × Int)) : Bool :=
  match vuLookup u l with
  | some v => v != 0
  | none => false

/-- Lookup in the `HISTORY` association list (`history[id]`). -/
def histLookup (id : String) : List (String × HistEntry) → Option HistEntry
  | [] => none
  | (k, e) :: rest => if k = id then some e else histLookup id rest

/-- The in-place `+=` update of an existing history entry at vote-end. -/
def histAdd (e : HistEntry) (tp : Int) (vc pc : Nat) : HistEntry :=
  { e with totalPoints := e.totalPoints + tp,
           voterCount := e.voterCount + vc,
           participantCount := e.participantCount + pc }

/-- Apply `histAdd` at the entry whose key is `id` (present by assumption),
keeping insertion order. -/
def histUpdate (id : String) (tp : Int) (vc pc : Nat) :
    List (String × HistEntry) → List (String × HistEntry)
  | [] => []
  | (k, e) :: rest =>
      if k = id then (k, histAdd e tp vc pc) :: rest
      else (k, e) :: histUpdate id tp vc pc rest

/-- The vote-end history merge: `if (history[id]) (+=) else (create)`; a new
key is appended at the end (JavaScript insertion order). -/
def histStore (id title : String) (tp : Int) (vc pc : Nat)
    (h : List (String × HistEntry)) : List (String × HistEntry) :=
  match histLookup id h with
  | some _ => histUpdate id tp vc pc h
  | none => h ++ [(id, ⟨title, tp, vc, pc⟩)]

/-- Per-track average used by the session-end summary:
`totalPoints/participantCount`, `0` when `participantCount` is `0`. -/
def avgQ (e : HistEntry) : ℚ :=
  if 0 < e.participantCount then (e.totalPoints : ℚ) / (e.participantCount : ℚ) else 0

/-- Insert an element into an already-sorted (descending by `avgQ`) list,
in front of the first element it is greater than or equal to.  Folding this
over the list from the right yields exactly a stable descending sort, which
is what `Array.prototype.sort` (stable per the ECMAScript spec) does with
the comparator `(a, b) => avgB - avgA`. -/
def insertDesc (x : HistEntry) : List HistEntry → List HistEntry
  | [] => [x]
  | y :: ys => if avgQ y ≤ avgQ x then x :: y :: ys else y :: insertDesc x ys

/-- Stable sort of the history values by descending average. -/
def sortByAvgDesc : List HistEntry → List HistEntry
  | [] => []
  | x :: xs => insertDesc x (sortByAvgDesc xs)

/-- Prefix test on character lists (the literal `vote_1_`/`vote_2_` part of
the vote-button regexp), written over `List Char` so that it evaluates by
structural recursion. -/
def charsStartWith : List Char → List Char → Bool
  | [], _ => true
  | _ :: _, [] => false
  | p :: ps, c :: cs => p = c && charsStartWith ps cs

/-- True when no character of `l` is a line terminator; the regexp atom `.`
of JavaScript matches every other character. -/
def noLineTerm (l : List Char) : Bool :=
  l.all (fun c => c ≠ '\n' && c ≠ '\r' && c ≠ '\u2028' && c ≠ '\u2029')

/-- The component custom-id match `/^vote_([12])_(.+)$/`: on success returns
the parsed points (`1` or `2`) and the track id that follows the second
underscore (nonempty, no line terminators). -/
def parseVoteButton (customId : String) : Option (Int × String) :=
  let cs := customId.toList
  if charsStartWith "vote_1_".toList cs then
    let rest := cs.drop 7
    if rest.isEmpty then none
    else if noLineTerm rest then some (1, String.mk rest) else none
  else if charsStartWith "vote_2_".toList cs then
    let rest := cs.drop 7
    if rest.isEmpty then none
    else if noLineTerm rest then some (2, String.mk rest) else none
  else none

/-- The `session-start` handler.  The playlist argument packages the
`playlist_url` option together with the injected external resolution:
`none` when the option is absent, `some none` when `getPlaylistId` fails on
the given value, and `some (some items)` for the items the catalog returned
(possibly the empty list, which the handler rejects). -/
def sessionStartCmd (playlist : Option (Option (List QueueItem))) (st : Store) :
    Store × Resp :=
  if st.sessionActive = some "true" then (st, .alreadyActive)
  else
    match playlist with
    | some none => (st, .invalidPlaylistUrl)
    | some (some items) =>
        if items.isEmpty then (st, .emptyPlaylist)
        else
          ({ st with sessionActive := some "true", currentSong := .absent,
                     votedUsers := none, eligibleVoters := none, history := none,
                     participants := some [], queue := some items },
           .sessionStarted items.length)
    | none =>
        ({ st with sessionActive := some "true", currentSong := .absent,
                   votedUsers := none, eligibleVoters := none, history := none,
                   participants := some [], queue := some [] },
         .sessionStarted 0)

/-- The `session-end` handler.  Note the guard compares the stored string
with `'false'` (strict equality in the source), so an absent key passes. -/
def sessionEndCmd (st : Store) : Store × Resp :=
  if st.sessionActive = some "false" then (st, .notActive)
  else
    match st.currentSong.get? with
    | some _ => (st, .voteInProgress)
    | none =>
        ({ st with sessionActive := some "false" },
         .sessionEnded (sortByAvgDesc ((st.history.getD []).map Prod.snd)))

/-- The `vote-start` handler.  `vid` is the result of `getVideoId` on the
`url` option and `title` the injected `getVideoTitle` result (the lookup
substitutes a placeholder on failure, so it always yields a string). -/
def voteStartCmd (vid : Option String) (title : String) (st : Store) :
    Store × Resp :=
  if st.sessionActive = some "false" then (st, .notActive)
  else if (st.currentSong.get?).isSome then (st, .voteInProgress)
  else
    match vid with
    | none => (st, .unresolvableUrl)
    | some v =>
        ({ st with currentSong := .song ⟨title, v, 0⟩,
                   votedUsers := some [],
                   eligibleVoters := some (st.participants.getD []) },
         .nowPlaying title v)

/-- The `vote-next` handler: pop the queue head and start it, with the same
participant snapshot and vote reset as `vote-start`. -/
def voteNextCmd (st : Store) : Store × Resp :=
  if st.sessionActive ≠ some "true" then (st, .notActive)
  else if (st.currentSong.get?).isSome then (st, .voteInProgress)
  else
    match st.queue.getD [] with
    | [] => (st, .queueEmpty)
    | next :: rest =>
        ({ st with queue := some rest,
                   currentSong := .song ⟨next.title, next.id, 0⟩,
                   votedUsers := some [],
                   eligibleVoters := some (st.participants.getD []) },
         .nowPlaying next.title next.id)

/-- The `vote-end` handler: tally, merge into history, write the empty
string over `CURRENT_SONG`, report the tuple and the `average > 1` flag. -/
def voteEndCmd (st : Store) : Store × Resp :=
  match st.currentSong.get? with
  | none => (st, .noCurrentSong)
  | some song =>
      let vu := st.votedUsers.getD []
      let ev := st.eligibleVoters.getD []
      let totalPoints := (vu.map Prod.snd).sum
      let voterCount := vu.length
      let participantCount := ev.length
      let average : ℚ :=
        if 0 < participantCount then (totalPoints : ℚ) / (participantCount : ℚ) else 0
      let hist' := histStore song.id song.title totalPoints voterCount participantCount
        (st.history.getD [])
      ({ st with history := some hist', currentSong := .emptyStr },
       .voteEnded song.title totalPoints voterCount participantCount average
         (decide (1 < average)))

/-- The `enter` handler: join the participant roster. -/
def enterCmd (uid : String) (st : Store) : Store × Resp :=
  if st.sessionActive ≠ some "true" then (st, .notActive)
  else
    let parts := st.participants.getD []
    if uid ∈ parts then (st, .alreadyJoined)
    else ({ st with participants := some (parts ++ [uid]) },
          .joined (parts ++ [uid]).length)

/-- The store mutation shared by `exit` and `kick`: filter the user out of
the roster, out of `ELIGIBLE_VOTERS` when that key is present, and delete
the user's entry of `VOTED_USERS` when that key is present and the stored
value is truthy. -/
def removeUser (uid : String) (st : Store) : Store :=
  let st1 := { st with
    participants := some ((st.participants.getD []).filter (fun i => i ≠ uid)) }
  let st2 :=
    match st.eligibleVoters with
    | some ev => { st1 with eligibleVoters := some (ev.filter (fun i => i ≠ uid)) }
    | none => st1
  match st.votedUsers with
  | some vu =>
      if vuTruthy uid vu then { st2 with votedUsers := some (vuErase uid vu) } else st2
  | none => st2

/-- The `exit` handler. -/
def exitCmd (uid : String) (st : Store) : Store × Resp :=
  if st.sessionActive ≠ some "true" then (st, .notActive)
  else if uid ∈ st.participants.getD [] then (removeUser uid st, .leftSession)
  else (st, .notJoined)

/-- The `kick` handler (target id comes from the `user` option). -/
def kickCmd (target : String) (st : Store) : Store × Resp :=
  if st.sessionActive ≠ some "true" then (st, .notActive)
  else if target ∈ st.participants.getD [] then (removeUser target st, .kicked)
  else (st, .targetNotJoined)

/-- The `participants` handler (read-only). -/
def participantsCmd (st : Store) : Store × Resp :=
  if st.sessionActive ≠ some "true" then (st, .notActive)
  else
    let parts := st.participants.getD []
    if parts.isEmpty then (st, .noParticipants) else (st, .participantList parts)

/-- The vote-button logic after the custom-id regexp matched: the four
guards, then the toggle (same score deletes, different score assigns). -/
def castVote (points : Int) (vid uid : String) (st : Store) : Store × Resp :=
  if st.sessionActive ≠ some "true" then (st, .sessionClosed)
  else
    match st.currentSong.get? with
    | none => (st, .voteClosed)
    | some song =>
        if song.id ≠ vid then (st, .voteClosed)
        else if uid ∉ st.participants.getD [] then (st, .notAParticipant)
        else if uid ∉ st.eligibleVoters.getD [] then (st, .notEligible)
        else
          let vu := st.votedUsers.getD []
          if vuLookup uid vu = some points then
            ({ st with votedUsers := some (vuErase uid vu) }, .voteRetracted)
          else
            ({ st with votedUsers := some (vuSet uid points vu) }, .voteCast points)

/-- The `MESSAGE_COMPONENT` entry point: anything that does not match the
vote-button pattern falls through to the generic 400 reply with no store
access. -/
def componentCmd (customId uid : String) (st : Store) : Store × Resp :=
  match parseVoteButton customId with
  | none => (st, .unknownComponent)
  | some (points, vid) => castVote points vid uid st

/-- The operations an inbound request can carry: one constructor per slash
command plus one for a component (button) interaction.  Arguments that the
source obtains from loosely parsed options or injected external lookups
(`playlist`, `vid`, `title`) travel with the operation. -/
inductive Op
  | sessionStart (playlist : Option (Option (List QueueItem)))
  | sessionEnd
  | voteStart (vid : Option String) (title : String)
  | voteNext
  | voteEnd
  | enter
  | exitSession
  | kick (target : String)
  | participantsQuery
  | component (customId : String)
deriving DecidableEq

/-- Whether a slash command is on the `managerOnlyCommands` list. -/
def managerOnly : Op → Bool
  | .sessionStart _ => true
  | .sessionEnd => true
  | .voteStart _ _ => true
  | .voteNext => true
  | .voteEnd => true
  | .kick _ => true
  | .participantsQuery => true
  | _ => false

/-- The full request dispatcher: component interactions bypass the manager
gate (they are a different interaction type); slash commands on the
manager-only list are rejected, before any store read or write, unless the
caller id equals the configured `MANAGER_USER_ID`. -/
def handle (managerId uid : String) (op : Op) (st : Store) : Store × Resp :=
  if managerOnly op && !(uid == managerId) then (st, .forbidden)
  else
    match op with
    | .sessionStart p => sessionStartCmd p st
    | .sessionEnd => sessionEndCmd st
    | .voteStart v t => voteStartCmd v t st
    | .voteNext => voteNextCmd st
    | .voteEnd => voteEndCmd st
    | .enter => enterCmd uid st
    | .exitSession => exitCmd uid st
    | .kick t => kickCmd t st
    | .participantsQuery => participantsCmd st
    | .component cid => componentCmd cid uid st

/-- One request: caller id plus operation; the store after it. -/
def step (managerId : String) (st : Store) (i : String × Op) : Store :=
  (handle managerId i.1 i.2 st).1

/-- Run a sequence of requests from a starting store. -/
def run (managerId : String) (st : Store) : List (String × Op) → Store
  | [] => st
  | i :: rest => run managerId (step managerId st i) rest

/-- A store is reachable when some request sequence produces it from the
initial (empty) store. -/
def Reachable (managerId : String) (st : Store) : Prop :=
  ∃ ops : List (String × Op), run managerId initialStore ops = st

/-- The direction of invariant I1 that the code maintains: whenever a song
is open for voting, the `ELIGIBLE_VOTERS` and `VOTED_USERS` keys exist. -/
def I1weak (st : Store) : Prop :=
  (st.currentSong.get?).isSome → st.eligibleVoters.isSome ∧ st.votedUsers.isSome

/-- Every score recorded in `VOTED_USERS` is `1` or `2`. -/
def scoresOK (st : Store) : Prop :=
  ∀ kv ∈ st.votedUsers.getD [], kv.2 = 1 ∨ kv.2 = 2

/-- A session that was just started and has no current song. -/
def activeEmptyStore : Store := { initialStore with sessionActive := some "true" }

/-- A concrete current song used in witnesses. -/
def demoSong : Song := ⟨"Song A", "abcdefghijk", 0⟩

/-- A concrete mid-vote store used in witnesses: two participants, both
snapshotted as eligible, nobody has voted yet. -/
def votingStore : Store :=
  { sessionActive := some "true", queue := some [], currentSong := .song demoSong,
    participants := some ["alice", "bob"], eligibleVoters := some ["alice", "bob"],
    votedUsers := some [], history := some [] }

/-- The request sequence session-start, vote-start, vote-end, issued by the
manager. -/
def startVoteEndTrace : List (String × Op) :=
  [("mgr", .sessionStart none),
   ("mgr", .voteStart (some "abcdefghijk") "Song A"),
   ("mgr", .voteEnd)]

/-- The mid-vote store after a third user joined the roster: a participant
who is not in the eligibility snapshot. -/
def lateJoinStore : Store :=
  { votingStore with participants := some ["alice", "bob", "carol"] }

/-- A history whose three tracks have averages 2, 0 and 3/2 in that
insertion order (the ordering example of the spec). -/
def historyABC : List (String × HistEntry) :=
  [("idA", ⟨"A", 4, 2, 2⟩), ("idB", ⟨"B", 0, 0, 3⟩), ("idC", ⟨"C", 3, 2, 2⟩)]

/-- An active session with no current song and the example history. -/
def summaryStore : Store := { activeEmptyStore with history := some historyABC }

/-- The spec's `totalPoints`: sum of the `VOTED_USERS` values. -/
def tallyPoints (st : Store) : Int := ((st.votedUsers.getD []).map Prod.snd).sum

/-- The spec's `voterCount`: number of `VOTED_USERS` entries. -/
def tallyVoters (st : Store) : Nat := (st.votedUsers.getD []).length

/-- The spec's `participantCount`: size of the eligibility snapshot. -/
def tallyParticipants (st : Store) : Nat := (st.eligibleVoters.getD []).length

/-- The spec's `average`: `totalPoints/participantCount`, `0` when the
snapshot is empty. -/
def tallyAverage (st : Store) : ℚ :=
  if 0 < tallyParticipants st then
    (tallyPoints st : ℚ) / (tallyParticipants st : ℚ)
  else 0

/-- The mid-vote store after alice voted 2 and bob voted 1 (the end-to-end
scenario of the spec's testable properties). -/
def talliedStore : Store :=
  { votingStore with votedUsers := some [("alice", 2), ("bob", 1)] }

theorem removeUser_currentSong (uid : String) (st : Store) :
    (removeUser uid st).currentSong = st.currentSong := by
  unfold removeUser
  cases st.eligibleVoters <;> cases st.votedUsers <;> dsimp only <;>
    (try split) <;> rfl

theorem removeUser_ev_isSome (uid : String) (st : Store) :
    (removeUser uid st).eligibleVoters.isSome = st.eligibleVoters.isSome := by
  unfold removeUser
  cases st.eligibleVoters <;> cases st.votedUsers <;> dsimp only <;>
    (try split) <;> rfl

theorem removeUser_vu_isSome (uid : String) (st : Store) :
    (removeUser uid st).votedUsers.isSome = st.votedUsers.isSome := by
  unfold removeUser
  cases st.eligibleVoters <;> cases st.votedUsers <;> dsimp only <;>
    (try split) <;> rfl

theorem I1weak_removeUser (uid : String) (st : Store) (h : I1weak st) :
    I1weak (removeUser uid st) := by
  intro hc
  rw [removeUser_currentSong] at hc
  rw [removeUser_ev_isSome, removeUser_vu_isSome]
  exact h hc

theorem I1weak_castVote (p : Int) (vid uid : String) (st : Store) (h : I1weak st) :
    I1weak (castVote p vid uid st).1 := by
  unfold castVote
  split
  · exact h
  · split
    · exact h
    · rename_i song heq
      split
      · exact h
      · split
        · exact h
        · split
          · exact h
          · dsimp only
            split <;> (intro _; exact ⟨(h (by simp [heq])).1, by simp⟩)

theorem I1weak_step (mid : String) (st : Store) (i : String × Op) (h : I1weak st) :
    I1weak (step mid st i) := by
  obtain ⟨uid, op⟩ := i
  unfold step handle
  split
  · exact h
  · cases op <;> dsimp only
    case component cid =>
      unfold componentCmd
      split
      · exact h
      · exact I1weak_castVote _ _ _ _ h
    case sessionStart p =>
      unfold sessionStartCmd
      split
      · exact h
      · split
        · exact h
        · split
          · exact h
          · intro hc; simp [CurSongVal.get?] at hc
        · intro hc; simp [CurSongVal.get?] at hc
    case sessionEnd =>
      unfold sessionEndCmd
      split
      · exact h
      · split
        · exact h
        · intro hc
          exact ⟨(h hc).1, (h hc).2⟩
    case voteStart v t =>
      unfold voteStartCmd
      split
      · exact h
      · split
        · exact h
        · split
          · exact h
          · intro _; exact ⟨by simp, by simp⟩
    case voteNext =>
      unfold voteNextCmd
      split
      · exact h
      · split
        · exact h
        · split
          · exact h
          · intro _; exact ⟨by simp, by simp⟩
    case voteEnd =>
      unfold voteEndCmd
      split
      · exact h
      · intro hc; simp [CurSongVal.get?] at hc
    case enter =>
      unfold enterCmd
      split
      · exact h
      · dsimp only
        split
        · exact h
        · intro hc; exact ⟨(h hc).1, (h hc).2⟩
    case exitSession =>
      unfold exitCmd
      split
      · exact h
      · split
        · exact I1weak_removeUser _ _ h
        · exact h
    case kick t =>
      unfold kickCmd
      split
      · exact h
      · split
        · exact I1weak_removeUser _ _ h
        · exact h
    case participantsQuery =>
      unfold participantsCmd
      split
      · exact h
      · dsimp only
        split
        · exact h
        · exact h

theorem I1weak_run (mid : String) (st : Store) (ops : List (String × Op))
    (h : I1weak st) : I1weak (run mid st ops) := by
  induction ops generalizing st with
  | nil => exact h
  | cons i rest ih => exact ih _ (I1weak_step mid st i h)

/-- C1: the claim that vote-start and session-end fail with `NotActive` in
every state whose session flag is false, *including the initial state where
the `SESSION_ACTIVE` key is absent*, fails on the code: both handlers guard
with strict equality against the string `'false'`, so the absent key passes
the guard.  On the pristine store the manager's session-end succeeds and
writes `SESSION_ACTIVE='false'`, and vote-start starts a vote; every other
handler guards with `!== 'true'`, so the claim (and the spec) state the
evident intent and the two `=== 'false'` guards are a slip in the code. -/
theorem C1_absentFlag_divergence :
    handle "mgr" "mgr" Op.sessionEnd initialStore
      = ({ initialStore with sessionActive := some "false" }, Resp.sessionEnded []) ∧
    handle "mgr" "mgr" (Op.voteStart (some "abcdefghijk") "Song A") initialStore
      = ({ initialStore with
             currentSong := CurSongVal.song demoSong,
             votedUsers := some [], eligibleVoters := some [] },
         Resp.nowPlaying "Song A" "abcdefghijk") :=
  ⟨rfl, rfl⟩

/-- C2 as stated is refuted by the code: after the manager runs
session-start, vote-start, vote-end, the current song is cleared but the
`VOTED_USERS` and `ELIGIBLE_VOTERS` keys are still present — vote-end never
deletes them, so they are not "defined iff `CurrentSong` is set". -/
theorem C2_counterexample :
    ((run "mgr" initialStore startVoteEndTrace).currentSong.get?).isSome = false ∧
    (run "mgr" initialStore startVoteEndTrace).votedUsers.isSome = true ∧
    (run "mgr" initialStore startVoteEndTrace).eligibleVoters.isSome = true :=
  ⟨rfl, rfl, rfl⟩

/-- C2 (amended): after every operation of every request sequence, if
`CurrentSong` is set then `EligibleVoters` and `VotedUsers` are defined;
EndVote only clears `CurrentSong` and leaves the two keys in place (stale)
until the next vote-start/vote-next snapshot or session-start reset. -/
theorem C2_invariant_amended (mid : String) (st : Store) (h : Reachable mid st) :
    I1weak st := by
  obtain ⟨ops, rfl⟩ := h
  refine I1weak_run mid initialStore ops ?_
  intro hc
  simp [initialStore, CurSongVal.get?] at hc

theorem C2_invariant_amended_witness : I1weak initialStore :=
  C2_invariant_amended "mgr" initialStore ⟨[], rfl⟩

/-- C8: in every state with an active session, no current song, and an
empty (or absent) queue, vote-next fails with `QueueEmpty` and leaves every
store key unchanged. -/
theorem C8_queueEmpty_no_mutation (st : Store)
    (hA : st.sessionActive = some "true")
    (hc : st.currentSong.get? = none)
    (hq : st.queue.getD [] = []) :
    voteNextCmd st = (st, Resp.queueEmpty) := by
  simp [voteNextCmd, hA, hc, hq]

theorem C8_witness :
    activeEmptyStore.sessionActive = some "true" ∧
    activeEmptyStore.currentSong.get? = none ∧
    activeEmptyStore.queue.getD [] = [] ∧
    voteNextCmd activeEmptyStore = (activeEmptyStore, Resp.queueEmpty) :=
  ⟨rfl, rfl, rfl, C8_queueEmpty_no_mutation activeEmptyStore rfl rfl rfl⟩

theorem castVote_sessionClosed (p : Int) (vid uid : String) (st : Store)
    (hA : st.sessionActive ≠ some "true") :
    castVote p vid uid st = (st, Resp.sessionClosed) := by
  simp [castVote, hA]

theorem castVote_voteClosed_noSong (p : Int) (vid uid : String) (st : Store)
    (hA : st.sessionActive = some "true") (hc : st.currentSong.get? = none) :
    castVote p vid uid st = (st, Resp.voteClosed) := by
  simp [castVote, hA, hc]

theorem castVote_voteClosed_mismatch (p : Int) (vid uid : String) (st : Store)
    (song : Song) (hA : st.sessionActive = some "true")
    (hs : st.currentSong.get? = some song) (hne : song.id ≠ vid) :
    castVote p vid uid st = (st, Resp.voteClosed) := by
  simp [castVote, hA, hs, hne]

theorem castVote_notAParticipant (p : Int) (vid uid : String) (st : Store)
    (song : Song) (hA : st.sessionActive = some "true")
    (hs : st.currentSong.get? = some song) (hid : song.id = vid)
    (hp : uid ∉ st.participants.getD []) :
    castVote p vid uid st = (st, Resp.notAParticipant) := by
  simp [castVote, hA, hs, hid, hp]

theorem castVote_notEligible (p : Int) (vid uid : String) (st : Store)
    (song : Song) (hA : st.sessionActive = some "true")
    (hs : st.currentSong.get? = some song) (hid : song.id = vid)
    (hp : uid ∈ st.participants.getD [])
    (he : uid ∉ st.eligibleVoters.getD []) :
    castVote p vid uid st = (st, Resp.notEligible) := by
  simp [castVote, hA, hs, hid, hp, he]

theorem castVote_cast (p : Int) (vid uid : String) (st : Store)
    (song : Song) (hA : st.sessionActive = some "true")
    (hs : st.currentSong.get? = some song) (hid : song.id = vid)
    (hp : uid ∈ st.participants.getD [])
    (he : uid ∈ st.eligibleVoters.getD [])
    (hne : vuLookup uid (st.votedUsers.getD []) ≠ some p) :
    castVote p vid uid st
      = ({ st with votedUsers := some (vuSet uid p (st.votedUsers.getD [])) },
         Resp.voteCast p) := by
  simp [castVote, hA, hs, hid, hp, he, hne]

theorem castVote_retract (p : Int) (vid uid : String) (st : Store)
    (song : Song) (hA : st.sessionActive = some "true")
    (hs : st.currentSong.get? = some song) (hid : song.id = vid)
    (hp : uid ∈ st.participants.getD [])
    (he : uid ∈ st.eligibleVoters.getD [])
    (hl : vuLookup uid (st.votedUsers.getD []) = some p) :
    castVote p vid uid st
      = ({ st with votedUsers := some (vuErase uid (st.votedUsers.getD [])) },
         Resp.voteRetracted) := by
  simp [castVote, hA, hs, hid, hp, he, hl]

/-- C4: for every store, user, track id and score, the button vote fails
with `SessionClosed` when no session is active, with `VoteClosed` when
there is no current song or its id differs from the button's track id, with
`NotAParticipant` when the user is not on the roster, and with
`NotEligible` when the user is not in the eligibility snapshot; in every
failure case the returned store is the input store, unchanged. -/
theorem C4_vote_guard_errors (st : Store) (uid vid : String) (points : Int) :
    (st.sessionActive ≠ some "true" →
      castVote points vid uid st = (st, Resp.sessionClosed)) ∧
    (st.sessionActive = some "true" → st.currentSong.get? = none →
      castVote points vid uid st = (st, Resp.voteClosed)) ∧
    (∀ song, st.sessionActive = some "true" → st.currentSong.get? = some song →
      song.id ≠ vid → castVote points vid uid st = (st, Resp.voteClosed)) ∧
    (∀ song, st.sessionActive = some "true" → st.currentSong.get? = some song →
      song.id = vid → uid ∉ st.participants.getD [] →
      castVote points vid uid st = (st, Resp.notAParticipant)) ∧
    (∀ song, st.sessionActive = some "true" → st.currentSong.get? = some song →
      song.id = vid → uid ∈ st.participants.getD [] →
      uid ∉ st.eligibleVoters.getD [] →
      castVote points vid uid st = (st, Resp.notEligible)) :=
  ⟨fun hA => castVote_sessionClosed points vid uid st hA,
   fun hA hc => castVote_voteClosed_noSong points vid uid st hA hc,
   fun song hA hs hne => castVote_voteClosed_mismatch points vid uid st song hA hs hne,
   fun song hA hs hid hp => castVote_notAParticipant points vid uid st song hA hs hid hp,
   fun song hA hs hid hp he => castVote_notEligible points vid uid st song hA hs hid hp he⟩

theorem C4_witness :
    castVote 1 "abcdefghijk" "alice" initialStore = (initialStore, Resp.sessionClosed) ∧
    castVote 1 "abcdefghijk" "alice" activeEmptyStore = (activeEmptyStore, Resp.voteClosed) ∧
    castVote 1 "otherid" "alice" votingStore = (votingStore, Resp.voteClosed) ∧
    castVote 1 "abcdefghijk" "carol" votingStore = (votingStore, Resp.notAParticipant) ∧
    castVote 1 "abcdefghijk" "carol" lateJoinStore = (lateJoinStore, Resp.notEligible) :=
  ⟨(C4_vote_guard_errors initialStore "alice" "abcdefghijk" 1).1 (by decide),
   (C4_vote_guard_errors activeEmptyStore "alice" "abcdefghijk" 1).2.1 rfl rfl,
   (C4_vote_guard_errors votingStore "alice" "otherid" 1).2.2.1 demoSong rfl rfl (by decide),
   (C4_vote_guard_errors votingStore "carol" "abcdefghijk" 1).2.2.2.1 demoSong rfl rfl rfl
     (by decide),
   (C4_vote_guard_errors lateJoinStore "carol" "abcdefghijk" 1).2.2.2.2 demoSong rfl rfl rfl
     (by decide) (by decide)⟩

theorem vuSet_of_lookup_none (u : String) (p : Int) (l : List (String × Int))
    (h : vuLookup u l = none) : vuSet u p l = l ++ [(u, p)] := by
  induction l with
  | nil => rfl
  | cons kv rest ih =>
      obtain ⟨k, v⟩ := kv
      by_cases hk : k = u
      · simp [vuLookup, hk] at h
      · simp only [vuLookup, hk, if_false] at h
        simp [vuSet, hk, ih h]

theorem vuLookup_append_self (u : String) (p : Int) (l : List (String × Int))
    (h : vuLookup u l = none) : vuLookup u (l ++ [(u, p)]) = some p := by
  induction l with
  | nil => simp [vuLookup]
  | cons kv rest ih =>
      obtain ⟨k, v⟩ := kv
      by_cases hk : k = u
      · simp [vuLookup, hk] at h
      · simp only [vuLookup, hk, if_false] at h
        simp [vuLookup, hk, ih h]

theorem vuSet_append_self (u : String) (p q : Int) (l : List (String × Int))
    (h : vuLookup u l = none) : vuSet u p (l ++ [(u, q)]) = l ++ [(u, p)] := by
  induction l with
  | nil => simp [vuSet]
  | cons kv rest ih =>
      obtain ⟨k, v⟩ := kv
      by_cases hk : k = u
      · simp [vuLookup, hk] at h
      · simp only [vuLookup, hk, if_false] at h
        simp [vuSet, hk, ih h]

theorem vuErase_append_self (u : String) (p : Int) (l : List (String × Int))
    (h : vuLookup u l = none) : vuErase u (l ++ [(u, p)]) = l := by
  induction l with
  | nil => simp [vuErase]
  | cons kv rest ih =>
      obtain ⟨k, v⟩ := kv
      by_cases hk : k = u
      · simp [vuLookup, hk] at h
      · simp only [vuLookup, hk, if_false] at h
        simp [vuErase, hk, ih h]

theorem vuLookup_none_countP (u : String) (l : List (String × Int))
    (h : vuLookup u l = none) : l.countP (fun kv => kv.1 == u) = 0 := by
  induction l with
  | nil => rfl
  | cons kv rest ih =>
      obtain ⟨k, v⟩ := kv
      by_cases hk : k = u
      · simp [vuLookup, hk] at h
      · simp only [vuLookup, hk, if_false] at h
        simp [List.countP_cons, hk, ih h]

/-- C5: for an eligible user with no recorded vote on the current track,
pressing the same score button twice retracts (the user ends up absent from
`VOTED_USERS`), pressing score 1 then score 2 leaves the stored score 2,
and the final map holds exactly one entry for the user. -/
theorem C5_toggle_overwrite (st : Store) (uid vid : String) (song : Song) (p : Int)
    (hA : st.sessionActive = some "true")
    (hs : st.currentSong.get? = some song)
    (hid : song.id = vid)
    (hp : uid ∈ st.participants.getD [])
    (he : uid ∈ st.eligibleVoters.getD [])
    (h0 : vuLookup uid (st.votedUsers.getD []) = none) :
    ((castVote p vid uid (castVote p vid uid st).1).2 = Resp.voteRetracted ∧
     vuLookup uid ((castVote p vid uid (castVote p vid uid st).1).1.votedUsers.getD [])
       = none) ∧
    (vuLookup uid ((castVote 2 vid uid (castVote 1 vid uid st).1).1.votedUsers.getD [])
       = some 2 ∧
     ((castVote 2 vid uid (castVote 1 vid uid st).1).1.votedUsers.getD []).countP
       (fun kv => kv.1 == uid) = 1) := by
  have hcast : ∀ q : Int, castVote q vid uid st
      = ({ st with votedUsers := some ((st.votedUsers.getD []) ++ [(uid, q)]) },
         Resp.voteCast q) := by
    intro q
    rw [castVote_cast q vid uid st song hA hs hid hp he (by simp [h0]),
        vuSet_of_lookup_none uid q _ h0]
  constructor
  · rw [hcast p]
    have h2 := castVote_retract p vid uid
      ({ st with votedUsers := some ((st.votedUsers.getD []) ++ [(uid, p)]) }, Resp.voteCast p).1
      song hA hs hid hp he (by simpa using vuLookup_append_self uid p _ h0)
    rw [h2]
    refine ⟨rfl, ?_⟩
    simpa using by rw [vuErase_append_self uid p _ h0]; exact h0
  · rw [hcast 1]
    have h2 := castVote_cast 2 vid uid
      ({ st with votedUsers := some ((st.votedUsers.getD []) ++ [(uid, 1)]) }, Resp.voteCast 1).1
      song hA hs hid hp he
      (by simpa using by rw [vuLookup_append_self uid 1 _ h0]; simp)
    rw [h2]
    constructor
    · simpa using by
        rw [vuSet_append_self uid 2 1 _ h0]
        exact vuLookup_append_self uid 2 _ h0
    · simpa using by
        rw [vuSet_append_self uid 2 1 _ h0]
        simp [List.countP_append, vuLookup_none_countP uid _ h0, List.countP_cons]

theorem C5_witness :
    ((castVote 1 "abcdefghijk" "alice"
        (castVote 1 "abcdefghijk" "alice" votingStore).1).2 = Resp.voteRetracted ∧
     vuLookup "alice" ((castVote 1 "abcdefghijk" "alice"
        (castVote 1 "abcdefghijk" "alice" votingStore).1).1.votedUsers.getD []) = none) ∧
    (vuLookup "alice" ((castVote 2 "abcdefghijk" "alice"
        (castVote 1 "abcdefghijk" "alice" votingStore).1).1.votedUsers.getD []) = some 2 ∧
     ((castVote 2 "abcdefghijk" "alice"
        (castVote 1 "abcdefghijk" "alice" votingStore).1).1.votedUsers.getD []).countP
       (fun kv => kv.1 == "alice") = 1) :=
  C5_toggle_overwrite votingStore "alice" "abcdefghijk" demoSong 1 rfl rfl rfl
    (by decide) (by decide) rfl

theorem histLookup_histUpdate (qid tid : String) (tp : Int) (vc pc : Nat)
    (h : List (String × HistEntry)) :
    histLookup qid (histUpdate tid tp vc pc h)
      = if qid = tid then
          (histLookup tid h).map (fun e => histAdd e tp vc pc)
        else histLookup qid h := by
  induction h with
  | nil => by_cases hq : qid = tid <;> simp [histUpdate, histLookup, hq]
  | cons kv rest ih =>
      obtain ⟨k, e⟩ := kv
      by_cases hk : k = tid
      · subst hk
        by_cases hq : qid = k
        · subst hq
          simp [histUpdate, histLookup]
        · simp [histUpdate, histLookup, hq, Ne.symm hq]
      · by_cases hq : qid = k
        · subst hq
          simp [histUpdate, histLookup, hk, Ne.symm hk]
        · simp [histUpdate, histLookup, hk, hq, Ne.symm hq, ih]

theorem histLookup_append_of_none (qid : String) (l : List (String × HistEntry))
    (k : String) (e : HistEntry) (h : histLookup qid l = none) :
    histLookup qid (l ++ [(k, e)]) = if qid = k then some e else none := by
  induction l with
  | nil =>
      by_cases hq : qid = k
      · subst hq
        simp [histLookup]
      · simp [histLookup, hq, Ne.symm hq]
  | cons kv rest ih =>
      obtain ⟨k0, e0⟩ := kv
      by_cases hk : k0 = qid
      · simp [histLookup, hk] at h
      · simp only [histLookup, hk, if_false] at h
        simp [histLookup, hk, ih h]

theorem histLookup_append_of_some (qid : String) (l : List (String × HistEntry))
    (k : String) (e x : HistEntry) (h : histLookup qid l = some x) :
    histLookup qid (l ++ [(k, e)]) = some x := by
  induction l with
  | nil => simp [histLookup] at h
  | cons kv rest ih =>
      obtain ⟨k0, e0⟩ := kv
      by_cases hk : k0 = qid
      · simp only [histLookup, hk, if_true] at h
        simp [histLookup, hk, h]
      · simp only [histLookup, hk, if_false] at h
        simp [histLookup, hk, ih h]

theorem histLookup_histStore (qid tid title : String) (tp : Int) (vc pc : Nat)
    (h : List (String × HistEntry)) :
    histLookup qid (histStore tid title tp vc pc h)
      = if qid = tid then
          some (match histLookup tid h with
                | some e => histAdd e tp vc pc
                | none => ⟨title, tp, vc, pc⟩)
        else histLookup qid h := by
  unfold histStore
  cases hh : histLookup tid h with
  | some e0 =>
      rw [histLookup_histUpdate qid tid tp vc pc h, hh]
      try (split <;> rfl)
  | none =>
      by_cases hq : qid = tid
      · subst hq
        rw [histLookup_append_of_none qid h qid _ hh]
        simp [hh]
      · cases hx : histLookup qid h with
        | some x => rw [histLookup_append_of_some qid h tid _ x hx]; try simp [hq]
        | none => rw [histLookup_append_of_none qid h tid _ hx]; try simp [hq]

theorem voteEnd_success (st : Store) (song : Song)
    (hs : st.currentSong.get? = some song) :
    voteEndCmd st
      = ({ st with
             history := some (histStore song.id song.title (tallyPoints st)
               (tallyVoters st) (tallyParticipants st) (st.history.getD [])),
             currentSong := .emptyStr },
         Resp.voteEnded song.title (tallyPoints st) (tallyVoters st)
           (tallyParticipants st) (tallyAverage st)
           (decide (1 < tallyAverage st))) := by
  simp [voteEndCmd, hs, tallyPoints, tallyVoters, tallyParticipants, tallyAverage]

/-- C3: whenever a song is current, vote-end reports exactly the tally the
spec describes (totalPoints is the sum of `VOTED_USERS` values, voterCount
its size, participantCount the size of the eligibility snapshot, average
their quotient or 0), merges the three numbers into the history entry of
the track (adding onto an existing entry, else creating one at the end),
clears the current song, and raises the high-approval flag exactly when
the average exceeds 1 — equivalently when the snapshot is nonempty and
`participantCount < totalPoints`. -/
theorem C3_voteEnd_tally (st : Store) (song : Song)
    (hs : st.currentSong.get? = some song) :
    (voteEndCmd st).2
      = Resp.voteEnded song.title (tallyPoints st) (tallyVoters st)
          (tallyParticipants st) (tallyAverage st) (decide (1 < tallyAverage st)) ∧
    ((voteEndCmd st).1.currentSong.get? = none) ∧
    ((voteEndCmd st).1.sessionActive = st.sessionActive) ∧
    ((voteEndCmd st).1.history
      = some (histStore song.id song.title (tallyPoints st) (tallyVoters st)
          (tallyParticipants st) (st.history.getD []))) ∧
    (∀ qid, histLookup qid ((voteEndCmd st).1.history.getD [])
      = if qid = song.id then
          some (match histLookup song.id (st.history.getD []) with
                | some e => histAdd e (tallyPoints st) (tallyVoters st) (tallyParticipants st)
                | none => ⟨song.title, tallyPoints st, tallyVoters st, tallyParticipants st⟩)
        else histLookup qid (st.history.getD [])) ∧
    ((1 < tallyAverage st) ↔
      0 < tallyParticipants st ∧ (tallyParticipants st : ℤ) < tallyPoints st) := by
  rw [voteEnd_success st song hs]
  refine ⟨rfl, rfl, rfl, rfl, ?_, ?_⟩
  · intro qid
    simpa using histLookup_histStore qid song.id song.title (tallyPoints st)
      (tallyVoters st) (tallyParticipants st) (st.history.getD [])
  · unfold tallyAverage
    by_cases hpc : 0 < tallyParticipants st
    · rw [if_pos hpc, one_lt_div (by exact_mod_cast hpc)]
      constructor
      · intro hlt
        exact ⟨hpc, by exact_mod_cast hlt⟩
      · intro ⟨_, hlt⟩
        exact_mod_cast hlt
    · rw [if_neg hpc]
      simp [hpc]

theorem C3_witness :
    (voteEndCmd talliedStore).2
      = Resp.voteEnded "Song A" 3 2 2 ((3 : ℚ) / 2) true ∧
    histLookup "abcdefghijk" ((voteEndCmd talliedStore).1.history.getD [])
      = some ⟨"Song A", 3, 2, 2⟩ := by
  have h := C3_voteEnd_tally talliedStore demoSong rfl
  have havg : tallyAverage talliedStore = (3 : ℚ) / 2 := by
    norm_num [tallyAverage, tallyPoints, tallyParticipants, talliedStore, votingStore]
  refine ⟨?_, ?_⟩
  · rw [h.1, havg]
    simp only [Resp.voteEnded.injEq, decide_eq_true_eq]
    norm_num [demoSong, tallyPoints, tallyVoters, tallyParticipants, talliedStore,
      votingStore]
  · rw [h.2.2.2.2.1 "abcdefghijk"]
    decide

theorem voteStart_success (st : Store) (v title : String)
    (hA : st.sessionActive = some "true")
    (hc : st.currentSong.get? = none) :
    voteStartCmd (some v) title st
      = ({ st with
             currentSong := .song ⟨title, v, 0⟩,
             votedUsers := some [],
             eligibleVoters := some (st.participants.getD []) },
         Resp.nowPlaying title v) := by
  simp [voteStartCmd, hA, hc]

theorem enter_success (uid : String) (st : Store)
    (hA : st.sessionActive = some "true")
    (hu : uid ∉ st.participants.getD []) :
    enterCmd uid st
      = ({ st with participants := some (st.participants.getD [] ++ [uid]) },
         Resp.joined (st.participants.getD [] ++ [uid]).length) := by
  simp [enterCmd, hA, hu]

theorem castVote_success_resp (st : Store) (u v : String) (song : Song) (p : Int)
    (hA : st.sessionActive = some "true") (hs : st.currentSong.get? = some song)
    (hid : song.id = v) (hp : u ∈ st.participants.getD [])
    (he : u ∈ st.eligibleVoters.getD [])
    (h0 : vuLookup u (st.votedUsers.getD []) ≠ some p) :
    (castVote p v u st).2 = Resp.voteCast p := by
  rw [castVote_cast p v u st song hA hs hid hp he h0]

/-- C6: eligibility is a snapshot frozen at track start: a user who joins
the roster after vote-start snapshotted `Participants` into
`ELIGIBLE_VOTERS` gets `NotEligible` (with no state change) when voting on
the in-progress track, but the vote on the next track started after
vote-end succeeds, because the new snapshot includes the user. -/
theorem C6_eligibility_snapshot (st : Store) (u v1 t1 v2 t2 : String) (p : Int)
    (hA : st.sessionActive = some "true")
    (hc : st.currentSong.get? = none)
    (hu : u ∉ st.participants.getD []) :
    castVote p v1 u ((enterCmd u ((voteStartCmd (some v1) t1 st).1)).1)
      = ((enterCmd u ((voteStartCmd (some v1) t1 st).1)).1, Resp.notEligible) ∧
    (castVote p v2 u ((voteStartCmd (some v2) t2
        ((voteEndCmd ((enterCmd u ((voteStartCmd (some v1) t1 st).1)).1)).1)).1)).2
      = Resp.voteCast p := by
  have h1 : (voteStartCmd (some v1) t1 st).1
      = { st with
            currentSong := .song ⟨t1, v1, 0⟩,
            votedUsers := some [],
            eligibleVoters := some (st.participants.getD []) } := by
    rw [voteStart_success st v1 t1 hA hc]
  have h2 : (enterCmd u ((voteStartCmd (some v1) t1 st).1)).1
      = { st with
            currentSong := .song ⟨t1, v1, 0⟩,
            votedUsers := some [],
            eligibleVoters := some (st.participants.getD []),
            participants := some (st.participants.getD [] ++ [u]) } := by
    rw [h1]
    exact congrArg Prod.fst (enter_success u _ (by exact hA) (by exact hu))
  have hend := voteEnd_success
    { st with
        currentSong := .song ⟨t1, v1, 0⟩,
        votedUsers := some [],
        eligibleVoters := some (st.participants.getD []),
        participants := some (st.participants.getD [] ++ [u]) }
    ⟨t1, v1, 0⟩ rfl
  constructor
  · rw [h2]
    exact castVote_notEligible p v1 u _ ⟨t1, v1, 0⟩ hA rfl rfl (by simp)
      (by simpa using hu)
  · have hA3 : ((voteEndCmd ((enterCmd u
          ((voteStartCmd (some v1) t1 st).1)).1)).1).sessionActive = some "true" := by
      rw [h2, hend]
      exact hA
    have hc3 : ((voteEndCmd ((enterCmd u
          ((voteStartCmd (some v1) t1 st).1)).1)).1).currentSong.get? = none := by
      rw [h2, hend]
      rfl
    have hp3 : u ∈ ((voteEndCmd ((enterCmd u
          ((voteStartCmd (some v1) t1 st).1)).1)).1).participants.getD [] := by
      rw [h2, hend]
      simp
    rw [voteStart_success _ v2 t2 hA3 hc3]
    exact castVote_success_resp _ u v2 ⟨t2, v2, 0⟩ p (by exact hA3) rfl rfl
      (by exact hp3) (by exact hp3) (by simp [vuLookup])

theorem C6_witness :
    castVote 1 "abcdefghijk" "carol"
        ((enterCmd "carol" ((voteStartCmd (some "abcdefghijk") "Song A"
          activeEmptyStore).1)).1)
      = ((enterCmd "carol" ((voteStartCmd (some "abcdefghijk") "Song A"
          activeEmptyStore).1)).1, Resp.notEligible) ∧
    (castVote 1 "zyxwvutsrqp" "carol" ((voteStartCmd (some "zyxwvutsrqp") "Song B"
        ((voteEndCmd ((enterCmd "carol" ((voteStartCmd (some "abcdefghijk") "Song A"
          activeEmptyStore).1)).1)).1)).1)).2
      = Resp.voteCast 1 :=
  C6_eligibility_snapshot activeEmptyStore "carol" "abcdefghijk" "Song A"
    "zyxwvutsrqp" "Song B" 1 rfl rfl (by decide)

theorem perm_insertDesc (x : HistEntry) (l : List HistEntry) :
    List.Perm (insertDesc x l) (x :: l) := by
  induction l with
  | nil => simp [insertDesc]
  | cons y ys ih =>
      by_cases h : avgQ y ≤ avgQ x
      · simp [insertDesc, h]
      · simp only [insertDesc, h, if_false]
        exact List.Perm.trans (List.Perm.cons y ih) (List.Perm.swap x y ys)

theorem pairwise_insertDesc (x : HistEntry) (l : List HistEntry)
    (h : l.Pairwise (fun a b => avgQ b ≤ avgQ a)) :
    (insertDesc x l).Pairwise (fun a b => avgQ b ≤ avgQ a) := by
  induction l with
  | nil => simp [insertDesc]
  | cons y ys ih =>
      rcases List.pairwise_cons.mp h with ⟨hy, hys⟩
      by_cases hcmp : avgQ y ≤ avgQ x
      · simp only [insertDesc, hcmp, if_true]
        refine List.pairwise_cons.mpr ⟨?_, h⟩
        intro b hb
        rcases List.mem_cons.mp hb with rfl | hb
        · exact hcmp
        · exact le_trans (hy b hb) hcmp
      · have hxy : avgQ x ≤ avgQ y := le_of_lt (lt_of_not_le hcmp)
        simp only [insertDesc, hcmp, if_false]
        refine List.pairwise_cons.mpr ⟨?_, ih hys⟩
        intro b hb
        rcases List.mem_cons.mp ((perm_insertDesc x ys).mem_iff.mp hb) with rfl | hb'
        · exact hxy
        · exact hy b hb'

theorem filter_insertDesc (x : HistEntry) (l : List HistEntry) (q : ℚ) :
    (insertDesc x l).filter (fun e => decide (avgQ e = q))
      = if avgQ x = q then x :: l.filter (fun e => decide (avgQ e = q))
        else l.filter (fun e => decide (avgQ e = q)) := by
  induction l with
  | nil =>
      by_cases hx : avgQ x = q <;> simp [insertDesc, List.filter, hx]
  | cons y ys ih =>
      by_cases hcmp : avgQ y ≤ avgQ x
      · simp only [insertDesc, hcmp, if_true]
        by_cases hx : avgQ x = q <;> simp [List.filter, hx]
      · have hlt : avgQ x < avgQ y := lt_of_not_le hcmp
        simp only [insertDesc, hcmp, if_false]
        by_cases hx : avgQ x = q
        · have hy : ¬ avgQ y = q := by
            rw [← hx]
            exact ne_of_gt hlt
          simp [List.filter, hx, hy, ih]
        · by_cases hy : avgQ y = q <;> simp [List.filter, hx, hy, ih]

theorem sortByAvgDesc_pairwise (l : List HistEntry) :
    (sortByAvgDesc l).Pairwise (fun a b => avgQ b ≤ avgQ a) := by
  induction l with
  | nil => simp [sortByAvgDesc]
  | cons x xs ih => exact pairwise_insertDesc x _ ih

theorem sortByAvgDesc_perm (l : List HistEntry) :
    List.Perm (sortByAvgDesc l) l := by
  induction l with
  | nil => exact List.Perm.refl []
  | cons x xs ih =>
      exact List.Perm.trans (perm_insertDesc x (sortByAvgDesc xs)) (List.Perm.cons x ih)

theorem sortByAvgDesc_filter (l : List HistEntry) (q : ℚ) :
    (sortByAvgDesc l).filter (fun e => decide (avgQ e = q))
      = l.filter (fun e => decide (avgQ e = q)) := by
  induction l with
  | nil => rfl
  | cons x xs ih =>
      show (insertDesc x (sortByAvgDesc xs)).filter (fun e => decide (avgQ e = q)) = _
      rw [filter_insertDesc]
      by_cases hx : avgQ x = q
      · simp [List.filter, hx, ih]
      · simp [List.filter, hx, ih]

theorem sessionEnd_success (st : Store)
    (hA : st.sessionActive ≠ some "false")
    (hc : st.currentSong.get? = none) :
    sessionEndCmd st
      = ({ st with sessionActive := some "false" },
         Resp.sessionEnded (sortByAvgDesc ((st.history.getD []).map Prod.snd))) := by
  simp [sessionEndCmd, hA, hc]

/-- C7: with an active session and no current song, session-end flips the
flag to the string false and returns the history values sorted by
descending per-track average (`totalPoints/participantCount`, 0 for an
empty snapshot): the summary is a permutation of the stored values, its
averages are pairwise descending, and the sort is stable — for every
average value the summary lists the entries having it in their original
relative order.  The witness instantiates the spec's example, averages
[2, 0, 3/2] coming back ordered [2, 3/2, 0]. -/
theorem C7_summary_sorted (st : Store)
    (hA : st.sessionActive = some "true")
    (hc : st.currentSong.get? = none) :
    sessionEndCmd st
      = ({ st with sessionActive := some "false" },
         Resp.sessionEnded (sortByAvgDesc ((st.history.getD []).map Prod.snd))) ∧
    (sortByAvgDesc ((st.history.getD []).map Prod.snd)).Pairwise
      (fun a b => avgQ b ≤ avgQ a) ∧
    List.Perm (sortByAvgDesc ((st.history.getD []).map Prod.snd))
      ((st.history.getD []).map Prod.snd) ∧
    (∀ q : ℚ, (sortByAvgDesc ((st.history.getD []).map Prod.snd)).filter
        (fun e => decide (avgQ e = q))
      = ((st.history.getD []).map Prod.snd).filter (fun e => decide (avgQ e = q))) :=
  ⟨sessionEnd_success st (by simp [hA]) hc, sortByAvgDesc_pairwise _,
   sortByAvgDesc_perm _, fun q => sortByAvgDesc_filter _ q⟩

theorem C7_witness :
    sessionEndCmd summaryStore
      = ({ summaryStore with sessionActive := some "false" },
         Resp.sessionEnded
           (sortByAvgDesc ((summaryStore.history.getD []).map Prod.snd))) ∧
    sortByAvgDesc ((summaryStore.history.getD []).map Prod.snd)
      = [⟨"A", 4, 2, 2⟩, ⟨"C", 3, 2, 2⟩, ⟨"B", 0, 0, 3⟩] := by
  refine ⟨(C7_summary_sorted summaryStore rfl rfl).1, ?_⟩
  norm_num [summaryStore, activeEmptyStore, initialStore, historyABC,
    sortByAvgDesc, insertDesc, avgQ]

/-- C9: every slash command on the manager-only list (session-start,
session-end, vote-start, vote-end, vote-next, kick, participants) issued
by a caller whose id differs from the configured manager id is rejected
with the ephemeral forbidden message, and the store comes back unchanged
whatever it held — the result is the same constant for every store, which
is exactly the source's gate running before any store read or write; the
enter and exit commands and the vote button dispatch to their handlers for
every verified caller, manager or not. -/
theorem C9_manager_gate (mid uid cid : String) (op : Op) (st : Store) :
    (managerOnly op = true → uid ≠ mid → handle mid uid op st = (st, Resp.forbidden)) ∧
    handle mid uid Op.enter st = enterCmd uid st ∧
    handle mid uid Op.exitSession st = exitCmd uid st ∧
    handle mid uid (Op.component cid) st = componentCmd cid uid st := by
  refine ⟨?_, ?_, ?_, ?_⟩
  · intro hop hne
    have hcond : (managerOnly op && !(uid == mid)) = true := by
      rw [hop]
      simp [hne]
    unfold handle
    rw [hcond]
    simp
  · rfl
  · rfl
  · rfl

theorem C9_witness :
    handle "mgr" "user" (Op.sessionStart none) initialStore
      = (initialStore, Resp.forbidden) ∧
    handle "mgr" "user" Op.enter initialStore = enterCmd "user" initialStore ∧
    handle "mgr" "user" Op.exitSession initialStore = exitCmd "user" initialStore ∧
    handle "mgr" "user" (Op.component "vote_1_x") initialStore
      = componentCmd "vote_1_x" "user" initialStore :=
  ⟨(C9_manager_gate "mgr" "user" "vote_1_x" (Op.sessionStart none) initialStore).1 rfl
     (by decide),
   (C9_manager_gate "mgr" "user" "vote_1_x" Op.enter initialStore).2.1,
   (C9_manager_gate "mgr" "user" "vote_1_x" Op.exitSession initialStore).2.2.1,
   (C9_manager_gate "mgr" "user" "vote_1_x" (Op.component "vote_1_x") initialStore).2.2.2⟩

theorem mem_vuErase (u : String) (kv : String × Int) (l : List (String × Int))
    (h : kv ∈ vuErase u l) : kv ∈ l := by
  induction l with
  | nil => simp [vuErase] at h
  | cons kv0 rest ih =>
      obtain ⟨k, v⟩ := kv0
      by_cases hk : k = u
      · simp only [vuErase, hk, if_true] at h
        exact List.mem_cons_of_mem _ h
      · simp only [vuErase, hk, if_false] at h
        rcases List.mem_cons.mp h with rfl | h'
        · exact List.mem_cons_self _ _
        · exact List.mem_cons_of_mem _ (ih h')

theorem mem_vuSet (u : String) (p : Int) (kv : String × Int) (l : List (String × Int))
    (h : kv ∈ vuSet u p l) : kv.2 = p ∨ kv ∈ l := by
  induction l with
  | nil =>
      simp [vuSet] at h
      simp [h]
  | cons kv0 rest ih =>
      obtain ⟨k, v⟩ := kv0
      by_cases hk : k = u
      · simp only [vuSet, hk, if_true] at h
        rcases List.mem_cons.mp h with rfl | h'
        · left; rfl
        · right; exact List.mem_cons_of_mem _ h'
      · simp only [vuSet, hk, if_false] at h
        rcases List.mem_cons.mp h with rfl | h'
        · right; exact List.mem_cons_self _ _
        · rcases ih h' with hp | hm
          · left; exact hp
          · right; exact List.mem_cons_of_mem _ hm

theorem parseVoteButton_points (cid : String) (p : Int) (v : String)
    (h : parseVoteButton cid = some (p, v)) : p = 1 ∨ p = 2 := by
  unfold parseVoteButton at h
  dsimp only at h
  repeat' split at h
  all_goals simp_all

theorem votedUsers_removeUser (uid : String) (st : Store) :
    (removeUser uid st).votedUsers = st.votedUsers ∨
    ∃ vu, st.votedUsers = some vu ∧
      (removeUser uid st).votedUsers = some (vuErase uid vu) := by
  unfold removeUser
  cases st.eligibleVoters <;> cases hvu : st.votedUsers <;> dsimp only
  · left; rfl
  · split
    · right; exact ⟨_, rfl, rfl⟩
    · left; rfl
  · left; rfl
  · split
    · right; exact ⟨_, rfl, rfl⟩
    · left; rfl

theorem scoresOK_removeUser (uid : String) (st : Store) (h : scoresOK st) :
    scoresOK (removeUser uid st) := by
  rcases votedUsers_removeUser uid st with heq | ⟨vu, hvu, heq⟩
  · intro kv hkv
    rw [heq] at hkv
    exact h kv hkv
  · intro kv hkv
    rw [heq] at hkv
    apply h kv
    rw [hvu]
    simpa using mem_vuErase uid kv vu (by simpa using hkv)

theorem scoresOK_castVote (p : Int) (vid uid : String) (st : Store)
    (hp : p = 1 ∨ p = 2) (h : scoresOK st) : scoresOK (castVote p vid uid st).1 := by
  unfold castVote
  split
  · exact h
  · split
    · exact h
    · split
      · exact h
      · split
        · exact h
        · split
          · exact h
          · dsimp only
            split
            · intro kv hkv
              exact h kv (mem_vuErase uid kv _ (by simpa using hkv))
            · intro kv hkv
              rcases mem_vuSet uid p kv _ (by simpa using hkv) with hkp | hm
              · rw [hkp]; exact hp
              · exact h kv hm

theorem scoresOK_step (mid : String) (st : Store) (i : String × Op)
    (h : scoresOK st) : scoresOK (step mid st i) := by
  obtain ⟨uid, op⟩ := i
  unfold step handle
  split
  · exact h
  · cases op <;> dsimp only
    case sessionStart p =>
      unfold sessionStartCmd
      split
      · exact h
      · split
        · exact h
        · split
          · exact h
          · intro kv hkv; simp at hkv
        · intro kv hkv; simp at hkv
    case sessionEnd =>
      unfold sessionEndCmd
      split
      · exact h
      · split
        · exact h
        · exact h
    case voteStart v t =>
      unfold voteStartCmd
      split
      · exact h
      · split
        · exact h
        · split
          · exact h
          · intro kv hkv; simp at hkv
    case voteNext =>
      unfold voteNextCmd
      split
      · exact h
      · split
        · exact h
        · split
          · exact h
          · intro kv hkv; simp at hkv
    case voteEnd =>
      unfold voteEndCmd
      split
      · exact h
      · exact h
    case enter =>
      unfold enterCmd
      split
      · exact h
      · dsimp only
        split
        · exact h
        · exact h
    case exitSession =>
      unfold exitCmd
      split
      · exact h
      · split
        · exact scoresOK_removeUser _ _ h
        · exact h
    case kick t =>
      unfold kickCmd
      split
      · exact h
      · split
        · exact scoresOK_removeUser _ _ h
        · exact h
    case participantsQuery =>
      unfold participantsCmd
      split
      · exact h
      · dsimp only
        split
        · exact h
        · exact h
    case component cid hgate =>
      unfold componentCmd
      cases hpv : parseVoteButton cid with
      | none => exact h
      | some pv =>
          obtain ⟨pts, vid⟩ := pv
          exact scoresOK_castVote pts vid uid st (parseVoteButton_points cid pts vid hpv) h

theorem scoresOK_run (mid : String) (st : Store) (ops : List (String × Op))
    (h : scoresOK st) : scoresOK (run mid st ops) := by
  induction ops generalizing st with
  | nil => exact h
  | cons i rest ih => exact ih _ (scoresOK_step mid st i h)

theorem sumPoints_le (l : List (String × Int))
    (h : ∀ kv ∈ l, kv.2 = 1 ∨ kv.2 = 2) :
    (l.map Prod.snd).sum ≤ 2 * (l.length : ℤ) := by
  induction l with
  | nil => simp
  | cons x xs ih =>
      have hx : x.2 ≤ 2 := by
        rcases h x (List.mem_cons_self x xs) with h1 | h2 <;> omega
      have hxs := ih (fun kv hkv => h kv (List.mem_cons_of_mem x hkv))
      simp only [List.map_cons, List.sum_cons, List.length_cons]
      push_cast
      linarith

/-- C10: in every reachable store, every score recorded in `VOTED_USERS`
is 1 or 2 — the only writer parses it from a custom id matching the
vote button pattern, and a component interaction whose custom id does not
match is answered with the generic error and an unchanged store; as a
consequence, the totalPoints that vote-end reports never exceeds twice its
voterCount. -/
theorem C10_scores_one_or_two (mid : String) (st : Store) (h : Reachable mid st) :
    scoresOK st ∧
    (∀ cid uid, parseVoteButton cid = none →
      componentCmd cid uid st = (st, Resp.unknownComponent)) ∧
    (∀ song t tp vc pc avg hi, st.currentSong.get? = some song →
      (voteEndCmd st).2 = Resp.voteEnded t tp vc pc avg hi → tp ≤ 2 * (vc : ℤ)) := by
  obtain ⟨ops, rfl⟩ := h
  have hok : scoresOK (run mid initialStore ops) :=
    scoresOK_run mid initialStore ops (by intro kv hkv; simp [initialStore] at hkv)
  refine ⟨hok, ?_, ?_⟩
  · intro cid uid hparse
    simp [componentCmd, hparse]
  · intro song t tp vc pc avg hi hs hend
    rw [voteEnd_success (run mid initialStore ops) song hs] at hend
    injection hend with ht htp hvc hpc havg hhi
    rw [← htp, ← hvc]
    exact sumPoints_le _ hok

theorem C10_witness :
    scoresOK initialStore ∧
    componentCmd "button_x" "alice" initialStore
      = (initialStore, Resp.unknownComponent) :=
  ⟨(C10_scores_one_or_two "mgr" initialStore ⟨[], rfl⟩).1,
   (C10_scores_one_or_two "mgr" initialStore ⟨[], rfl⟩).2.1 "button_x" "alice" rfl⟩

end ListenAgain

